import Mathlib

/-!
Shallow embedding of the job-scraper pipeline in
`src/ai_parser.py` and `src/url_utils.py`, together with proofs about it.

Conventions used throughout:
* Python strings are modelled as `String` (or as `List Char` where the
  proofs need character-level induction, in the URL machinery).
* Python `re.search` with a literal pattern is substring search; the
  `re.IGNORECASE` flag is modelled by comparing lowercased characters.
* Fallible Python code (`raise ValueError`) is modelled with
  `Except String` / `Option`.
* Calls into the live environment (Playwright page, subprocesses, the
  code-synthesis model) are modelled as explicit function-valued inputs,
  so a run of a component is a pure function of those responses.
-/

set_option maxRecDepth 20000

/-! ## Generic character/list helpers -/

/-- Substring test: does `pat` occur (contiguously) inside `l`?
Models the Python `pat in s` test and `re.search` with a literal pattern. -/
def containsSub (pat : List Char) : List Char → Bool
  | [] => pat.isEmpty
  | c :: rest => pat.isPrefixOf (c :: rest) || containsSub pat rest

/-- `pat in s` on Python strings (`pat` a literal). -/
def strContains (s pat : String) : Bool := containsSub pat.data s.data

/-- Python `str.lower()` (character-wise lowercasing). -/
def pyLower (s : String) : String := String.mk (s.data.map Char.toLower)

/-- Case-insensitive prefix match (models matching a literal under
`re.IGNORECASE`): every character compared after `Char.toLower`. -/
def ciPrefixMatch : List Char → List Char → Bool
  | [], _ => true
  | _ :: _, [] => false
  | p :: ps, c :: cs => (p.toLower == c.toLower) && ciPrefixMatch ps cs

/-- Python `str.strip()` (whitespace from both ends). -/
def stripWs (l : List Char) : List Char :=
  ((l.dropWhile Char.isWhitespace).reverse.dropWhile Char.isWhitespace).reverse

/-- ASCII decimal digits; models `\d` of the used patterns. -/
def digitChars : List Char := ['0', '1', '2', '3', '4', '5', '6', '7', '8', '9']

def isDigitChar (c : Char) : Bool := digitChars.contains c

/-- Characters matched by `[a-f0-9]` under `re.IGNORECASE`. -/
def hexCiChars : List Char :=
  digitChars ++ ['a', 'b', 'c', 'd', 'e', 'f', 'A', 'B', 'C', 'D', 'E', 'F']

def isHexCiChar (c : Char) : Bool := hexCiChars.contains c

/-- Generic leftmost-match scanner: `re.search` tries the pattern at every
position from the left; `tryAt` reports a successful capture at the current
position, `none` otherwise. -/
def scanWith (tryAt : List Char → Option (List Char)) : List Char → Option (List Char)
  | [] => none
  | c :: rest =>
    match tryAt (c :: rest) with
    | some r => some r
    | none => scanWith tryAt rest

/-! ## Validation loop (`validate_generated_script`, src/ai_parser.py:923-1036)

One attempt of the loop runs the generated script as a subprocess and then
inspects the outcome.  The environment behaviour over the successive
attempts is modelled as a list of `RunResult`s, one per attempt, so the
configured `max_attempts` is the length of that list.  The intermediate
"ask the model for a fix and overwrite the script" step only affects what
the *next* run does, which the next list entry already captures. -/

/-- What one `subprocess.run` of the generated script produced.
`outputFile` is the content of the matching file in `job_descriptions/`
(`none` when no output file was generated). -/
inductive RunResult where
  | timeout
  | completed (returncode : Int) (stderr : String) (outputFile : Option String)
deriving DecidableEq, Repr

inductive ValidationOutcome where
  | passed
  | failed (reasons : List String)
deriving DecidableEq, Repr

/-- The content check at src/ai_parser.py:1017:
`len(content) > 500 and ("About" in content or "responsibilities" in
content.lower() or "description" in content.lower())`. -/
def sufficientOutput (content : String) : Bool :=
  decide (500 < content.length) &&
    (strContains content "About" ||
     strContains (pyLower content) "responsibilities" ||
     strContains (pyLower content) "description")

/-- Bump the attempt counter of a recursive result. -/
def bumpAttempt (p : ValidationOutcome × Nat) : ValidationOutcome × Nat := (p.1, p.2 + 1)

/-- The validation loop of `validate_generated_script`: the list holds the
run results of attempts `1..max_attempts`; the returned `Nat` is the number
of attempts actually performed.  On any failure before the last attempt the
Python code rewrites the script and continues; on the last attempt it
returns `False` with that attempt-local messages. -/
def validate_generated_script : List RunResult → ValidationOutcome × Nat
  | [] => (.failed ["Validation failed after all attempts"], 0)
  | r :: rest =>
    match r with
    | .timeout =>
      if rest.isEmpty then (.failed ["Script execution timeout (90s)"], 1)
      else bumpAttempt (validate_generated_script rest)
    | .completed code stderr file =>
      if code ≠ 0 then
        if rest.isEmpty then
          (.failed ["Script failed with exit code " ++ toString code, stderr.take 500], 1)
        else bumpAttempt (validate_generated_script rest)
      else
        match file with
        | none =>
          if rest.isEmpty then (.failed ["No output file generated"], 1)
          else bumpAttempt (validate_generated_script rest)
        | some content =>
          if sufficientOutput content then (.passed, 1)
          else if rest.isEmpty then
            (.failed ["Output too short (" ++ toString content.length ++
                      " chars) or missing key content"], 1)
          else bumpAttempt (validate_generated_script rest)

/-! ## Multi-job test harness (`validate_scraper_multi_job`, src/ai_parser.py:1135-1224) -/

/-- What running the script on one test url did. `exc` models the generic
`except Exception` arm. -/
inductive UrlRun where
  | timeout
  | exc (msg : String)
  | completed (returncode : Int) (stderr : String) (outputFile : Option String)
deriving DecidableEq, Repr

/-- Per-url result record (fields that do not matter to any claim, such as
`job_id` and `output_file`, are elided). -/
structure TestResult where
  url : String
  success : Bool
  description_length : Nat
  error : Option String
deriving DecidableEq, Repr

/-- The per-url body of the loop in `validate_scraper_multi_job`. -/
def runTestUrl (run : String → UrlRun) (url : String) : TestResult :=
  match run url with
  | .timeout => ⟨url, false, 0, some "Timeout (90s)"⟩
  | .exc m => ⟨url, false, 0, some m⟩
  | .completed code stderr file =>
    if code = 0 then
      match file with
      | some content =>
        if 500 < content.length then ⟨url, true, content.length, none⟩
        else ⟨url, false, content.length,
              some ("Output too short (" ++ toString content.length ++ " chars)")⟩
      | none => ⟨url, false, 0, some "No output file generated"⟩
    else ⟨url, false, 0, some ("Exit code " ++ toString code ++ ": " ++ stderr.take 200)⟩

/-- `validate_scraper_multi_job`: runs every test url, then
`success_rate = (successful / len(results)) * 100 if results else 0.0`.
Python float arithmetic is modelled with `ℚ` (the involved values are
exact). The early return for an empty url list (src/ai_parser.py:1154-1156)
also yields `(0.0, [])`. -/
def validate_scraper_multi_job (run : String → UrlRun) (test_urls : List String) :
    ℚ × List TestResult :=
  if test_urls.isEmpty then (0, [])
  else
    let results := test_urls.map (runTestUrl run)
    let successful := (results.filter (·.success)).length
    (((successful : ℚ) / (results.length : ℚ)) * 100, results)

/-! ## Live strategy prober (`test_extraction_strategies`, src/ai_parser.py:497-575) -/

/-- One entry of the list the prober returns.  The Python dicts use the
key `code` for javascript strategies and `selector` for css strategies;
both are held in `locator`.  `sampleLength` is the dict key `length`
(`len(str(result))` / `len(text)`, measured before truncating the
sample to 200 characters). -/
structure StrategyResult where
  strategy : String
  locator : String
  success : Bool
  sample : String
  sampleLength : Nat
  confidence : String
deriving DecidableEq, Repr

/-- The live page, as the prober observes it: `evalJS` is
`page.evaluate` on a given expression (`none` models an exception or a
falsy result object), `queryText` is `page.wait_for_selector` followed by
`element.text_content()` (`none` models a timeout/exception or a `None`
text). -/
structure ProbePage where
  evalJS : String → Option String
  queryText : String → Option String

/-- The `js_strategies` table (src/ai_parser.py:523-528). -/
def js_strategies (field : String) : Option String :=
  if field == "title" then
    some "document.querySelector(\x27h1\x27)?.textContent?.trim()"
  else if field == "company" then
    some "document.querySelector(\x27a[data-tracking-control-name*=\x22topcard\x22]\x27)?.textContent?.trim()"
  else if field == "location" then
    some "document.querySelector(\x27.topcard__flavor--bullet\x27)?.parentElement?.textContent?.match(/·\\s*([^·]+)/)?.[1]?.trim()"
  else if field == "description" then
    some "document.querySelector(\x27div.show-more-less-html__markup\x27)?.innerText || document.querySelector(\x27div.show-more-less-html__markup\x27)?.textContent"
  else none

/-- The `css_selectors` table (src/ai_parser.py:547-552); unknown fields
give `[]` (`css_selectors.get(field_name, [])`). -/
def css_selectors (field : String) : List String :=
  if field == "title" then
    ["h1", "h1.title", "[data-test-id=\x27job-title\x27]", ".job-title"]
  else if field == "company" then
    ["a[data-tracking-control-name*=\x27topcard\x27]", ".company-name", "[data-company-name]"]
  else if field == "location" then
    [".topcard__flavor", ".location", "[data-job-location]"]
  else if field == "description" then
    [".description", ".job-description", "[class*=\x27description\x27]", ".show-more-less-html__markup"]
  else []

/-- Strategy 1 of the prober: a single javascript evaluation, kept only if
the result is truthy and its stripped length exceeds 10. -/
def jsResults (page : ProbePage) (field : String) : List StrategyResult :=
  match js_strategies field with
  | none => []
  | some code =>
    match page.evalJS code with
    | none => []
    | some r =>
      if r ≠ "" && decide (10 < (stripWs r.data).length) then
        [⟨"javascript_evaluation", code, true, r.take 200, r.length,
          if 100 < r.length then "high" else "medium"⟩]
      else []

/-- Strategy 2 of the prober: every css selector of the per-field fallback
list that yields text of stripped length above 10 (the Python loop has no
`break`, so all successes are collected, in list order). -/
def cssResults (page : ProbePage) (field : String) : List StrategyResult :=
  (css_selectors field).filterMap fun sel =>
    match page.queryText sel with
    | none => none
    | some t =>
      if t ≠ "" && decide (10 < (stripWs t.data).length) then
        some ⟨"css_selector", sel, true, t.take 200, t.length,
              if 50 < t.length then "medium" else "low"⟩
      else none

/-- `confidence_order = {"high": 3, "medium": 2, "low": 1}` with
`.get(..., 0)` for anything else. -/
def confidence_order (c : String) : Nat :=
  if c == "high" then 3 else if c == "medium" then 2 else if c == "low" then 1 else 0

/-- `results.sort(key=lambda x: confidence_order.get(...), reverse=True)`.
The Python `list.sort` is stable, and the keys range over {3, 2, 1, 0}, so
the sorted list is exactly: the key-3 elements in original order, then the
key-2 elements, then key-1, then key-0. -/
def sortByConfidence (l : List StrategyResult) : List StrategyResult :=
  l.filter (fun r => confidence_order r.confidence == 3) ++
    (l.filter (fun r => confidence_order r.confidence == 2) ++
      (l.filter (fun r => confidence_order r.confidence == 1) ++
        l.filter (fun r => confidence_order r.confidence == 0)))

/-- `test_extraction_strategies`: javascript strategy first, then the css
fallbacks, finally the stable confidence-descending sort. -/
def test_extraction_strategies (page : ProbePage) (field : String) : List StrategyResult :=
  sortByConfidence (jsResults page field ++ cssResults page field)

/-! ## Interaction prober (`test_show_more_button`, src/ai_parser.py:578-644) -/

/-- The fixed ordered trigger list (src/ai_parser.py:602-607). -/
def button_selectors : List String :=
  ["button[aria-expanded=\x27false\x27]",
   "button:has-text(\x27Show more\x27)",
   ".show-more-less-html__button--more",
   "button[data-tracking-control-name*=\x27show-more\x27]"]

/-- The page as this prober observes it: the description-length
measurement before the click (`none` models the evaluate call raising),
which selectors can be waited-for-and-clicked, and the measurement after
the click (`none` models the second evaluate raising, in which case the
code falls back to the before value). -/
structure ExpansionPage where
  descBefore : Option Nat
  clickSucceeds : String → Bool
  descAfter : Option Nat

/-- Return dict of `test_show_more_button`; keys absent from the Python
dict are `none` here. -/
structure ShowMoreResult where
  needed : Bool
  selector : Option String
  before_length : Option Nat
  after_length : Option Nat
  impact : Option String
  strategy : Option String
deriving DecidableEq, Repr

def test_show_more_button (page : ExpansionPage) : ShowMoreResult :=
  match page.descBefore with
  | none => ⟨false, none, none, none, none, none⟩
  | some before =>
    match button_selectors.find? page.clickSucceeds with
    | none => ⟨false, none, some before, none, none, none⟩
    | some sel =>
      let after := page.descAfter.getD before
      ⟨true, some sel, some before, some after,
       some (toString before ++ " -> " ++ toString after ++ " chars (+" ++
             toString ((after : Int) - (before : Int)) ++ ")"),
       some ("Click " ++ sel ++ " before extraction")⟩

/-! ## Script structure checks and the generation gate
(`validate_script_structure` src/ai_parser.py:444-490,
`run_generation_mode` src/ai_parser.py:1404-1599) -/

/-- The generated artifact, as the checks observe it.  `parsesOk` models
`ast.parse`/`compile` succeeding (the same syntax predicate is consulted
twice in the code); `functionNames` the `ast.FunctionDef` names found when
parsing succeeds; `importNames`/`importFromNames` the modules of
`ast.Import`/`ast.ImportFrom` nodes; `text` the raw source text used by
the substring checks. -/
structure PyModule where
  parsesOk : Bool
  functionNames : List String
  importNames : List String
  importFromNames : List String
  text : String
deriving DecidableEq, Repr

def required_functions : List String :=
  ["sanitize_filename", "extract_job_id", "scrape_linkedin_job",
   "format_job_description", "main"]

/-- `validate_script_structure`: `(is_valid, issues)`. -/
def validate_script_structure (m : PyModule) : Bool × List String :=
  if m.parsesOk then
    let missing := required_functions.filter (fun f => !(m.functionNames.contains f))
    let missingIssues :=
      if missing.isEmpty then []
      else ["Missing required functions: " ++ String.intercalate ", " missing]
    let importIssues :=
      (m.importNames ++ m.importFromNames).filterMap fun n =>
        if strContains (pyLower n) "anthropic" || strContains (pyLower n) "mcp" then
          some ("Generated script should not import AI libraries: " ++ n)
        else none
    let issues := missingIssues ++ importIssues
    (issues.isEmpty, issues)
  else (false, ["Syntax error"])

inductive GenerationOutcome where
  | failed (msg : String)
  | persisted (warnings : List String)
deriving DecidableEq, Repr

/-- The artifact-acceptance portion of `run_generation_mode`
(src/ai_parser.py:1549-1599): syntax failure and a missing
`page.evaluate(` substring raise `ValueError` (no artifact); the css-loop
pattern and `validate_script_structure` issues are logged warnings only,
after which the artifact is written to disk. -/
def generationGate (m : PyModule) : GenerationOutcome :=
  if !m.parsesOk then .failed "Generated script validation failed: syntax error"
  else if !(strContains m.text "page.evaluate(") then
    .failed "Generated script must use page.evaluate() pattern"
  else
    let cssWarn :=
      if strContains m.text "page.wait_for_selector(" && strContains m.text "for selector in" then
        ["Script appears to use CSS selector loops (fragile pattern)"]
      else []
    let structWarn :=
      let v := validate_script_structure m
      if v.1 then [] else ["Script validation issues: " ++ String.intercalate ", " v.2]
    .persisted (cssWarn ++ structWarn)

/-! ## Site registries -/

/-- Job-site families; both modules register the same three. -/
inductive JobSite where
  | linkedin
  | indeed
  | glassdoor
deriving DecidableEq, Repr

/-- `url_utils.SITE_PATTERNS[site].domain_pattern` (a literal regex:
substring search on the lowercased url). -/
def domain_pattern : JobSite → List Char
  | .linkedin => "linkedin.com".data
  | .indeed => "indeed.com".data
  | .glassdoor => "glassdoor.com".data

/-- `url_utils.detect_job_site`: first domain pattern that matches the
lowercased url, in registration order; `None` otherwise. -/
def detect_job_site_utils (url : List Char) : Option JobSite :=
  if containsSub (domain_pattern .linkedin) (url.map Char.toLower) then some .linkedin
  else if containsSub (domain_pattern .indeed) (url.map Char.toLower) then some .indeed
  else if containsSub (domain_pattern .glassdoor) (url.map Char.toLower) then some .glassdoor
  else none

/-- `ai_parser.SITE_CONFIGS[site].url_pattern` (also literal regexes, but
stricter: they require part of the path as well). -/
def url_pattern_ai : JobSite → List Char
  | .linkedin => "linkedin.com/jobs".data
  | .indeed => "indeed.com/viewjob".data
  | .glassdoor => "glassdoor.com/job-listing".data

/-- `ai_parser.detect_job_site`: same first-match loop, but raising
`ValueError` when nothing matches. -/
def detect_job_site_ai (url : List Char) : Except String JobSite :=
  if containsSub (url_pattern_ai .linkedin) (url.map Char.toLower) then .ok .linkedin
  else if containsSub (url_pattern_ai .indeed) (url.map Char.toLower) then .ok .indeed
  else if containsSub (url_pattern_ai .glassdoor) (url.map Char.toLower) then .ok .glassdoor
  else .error "Unsupported job site"

/-! ## Generation-mode site resolution (src/ai_parser.py:1424-1444) -/

/-- `JobSite(site_name)`: the Python Enum lookup by value, raising
`ValueError` for an unregistered name. -/
def jobSiteFromName (name : String) : Except String JobSite :=
  if name == "linkedin" then .ok .linkedin
  else if name == "indeed" then .ok .indeed
  else if name == "glassdoor" then .ok .glassdoor
  else .error (name ++ " is not a valid JobSite")

/-- The fields of the discovery-log JSON that `run_generation_mode`
consults before talking to the model. -/
structure DiscoveryLogHeader where
  site : Option String
  url : Option (List Char)
  job_id : Option String

/-- Lines 1428-1438: the recorded `site` string wins when present; the
url of the log is consulted only as a fallback when `site` is absent. -/
def resolveGenerationSite (log : DiscoveryLogHeader) : Except String JobSite :=
  match log.site with
  | some name => jobSiteFromName name
  | none =>
    match log.url with
    | some url => detect_job_site_ai url
    | none => .error "Cannot determine site from discovery log"

/-- Lines 1428-1444: site resolution followed by the `job_id` presence
check (`if not job_id: raise`; the empty string is falsy). -/
def generationPrecheck (log : DiscoveryLogHeader) : Except String JobSite :=
  match resolveGenerationSite log with
  | .error e => .error e
  | .ok site =>
    match log.job_id with
    | none => .error "Discovery log missing job_id field"
    | some j => if j == "" then .error "Discovery log missing job_id field" else .ok site

/-! ## URL normalization (`url_utils.py`)

Job-id extraction uses `re.search(pattern, url, re.IGNORECASE)` with the
three per-site patterns.  Each is realised as a leftmost-match scanner
over the raw character list (captures keep the original characters;
literals are compared case-insensitively). -/

/-- `/jobs/view/` literal of the LinkedIn pattern. -/
def litJobsView : List Char := "/jobs/view/".data

/-- Try the LinkedIn pattern `/jobs/view/(\d+)` at the current position. -/
def tryLinkedinAt (s : List Char) : Option (List Char) :=
  if ciPrefixMatch litJobsView s then
    if ((s.drop litJobsView.length).takeWhile isDigitChar).isEmpty then none
    else some ((s.drop litJobsView.length).takeWhile isDigitChar)
  else none

/-- `jk=` literal of the Indeed pattern `[?&]jk=([a-f0-9]+)`. -/
def litJkEq : List Char := "jk=".data

/-- Does the head of `s` satisfy `[?&]` followed by `jk=` (ci)? -/
def indeedHeadMatch : List Char → Bool
  | [] => false
  | c :: rest => (c == '?' || c == '&') && ciPrefixMatch litJkEq rest

/-- Try the Indeed pattern `[?&]jk=([a-f0-9]+)` at the current position. -/
def tryIndeedAt (s : List Char) : Option (List Char) :=
  if indeedHeadMatch s then
    if ((s.drop 4).takeWhile isHexCiChar).isEmpty then none
    else some ((s.drop 4).takeWhile isHexCiChar)
  else none

/-- `job-listing/` literal of the Glassdoor pattern. -/
def litJobListing : List Char := "job-listing/".data

/-- `-JV_IC` literal, pre-lowercased (matching is case-insensitive). -/
def litJvIc : List Char := "-jv_ic".data

/-- Greedy backtracking for `[^/]+-JV_IC(\d+)` applied to `s`: the engine
first lets `[^/]+` take as many characters as possible and backtracks, so
the successful split with the largest `k ≥ 1` wins. `k` counts down. -/
def gdTryLen : Nat → List Char → Option (List Char)
  | 0, _ => none
  | k + 1, s =>
    if (s.take (k + 1)).all (fun c => !(c == '/')) &&
       ciPrefixMatch litJvIc (s.drop (k + 1)) then
      let run := (s.drop (k + 1 + litJvIc.length)).takeWhile isDigitChar
      if run.isEmpty then gdTryLen k s else some run
    else gdTryLen k s

/-- Try the Glassdoor pattern (mid slash-free segment then the id) at the current position. -/
def tryGlassdoorAt (s : List Char) : Option (List Char) :=
  if ciPrefixMatch litJobListing s then
    let tail := s.drop litJobListing.length
    gdTryLen tail.length tail
  else none

/-- `url_utils.extract_job_id` (site already known): `re.search` of the
relevant `job_id_pattern` over the url, leftmost match, capture group 1. -/
def extract_job_id_utils (url : List Char) : JobSite → Option (List Char)
  | .linkedin => scanWith tryLinkedinAt url
  | .indeed => scanWith tryIndeedAt url
  | .glassdoor => scanWith tryGlassdoorAt url

/-- `canonical_template.format(job_id=...)`: all three templates end with
the job id, so they are a fixed base followed by the id. -/
def canonicalBase : JobSite → List Char
  | .linkedin => "https://www.linkedin.com/jobs/view/".data
  | .indeed => "https://www.indeed.com/viewjob?jk=".data
  | .glassdoor => "https://www.glassdoor.com/job-listing/-JV_IC".data

/-- `url_utils.JobURL`. -/
structure JobURL where
  site : JobSite
  job_id : List Char
  original_url : List Char
  canonical_url : List Char
deriving DecidableEq, Repr

/-- `url_utils.normalize_job_url`: empty check, strip, site detection,
id extraction, canonical reconstruction; failures raise `ValueError`. -/
def normalize_job_url (url : List Char) : Except String JobURL :=
  if url.isEmpty then .error "URL must be a non-empty string"
  else
    let u := stripWs url
    match detect_job_site_utils u with
    | none => .error "Unsupported job site"
    | some site =>
      match extract_job_id_utils u site with
      | none => .error "Could not extract job ID"
      | some id => .ok ⟨site, id, u, canonicalBase site ++ id⟩

/-! ## Concrete instances used by the scenario parts of the claims -/

/-- A string of `n` copies of `x` (a generic content stand-in). -/
def xChars (n : Nat) : String := String.mk (List.replicate n 'x')

/-- An attempt whose script exits 0 and writes a 200-character output
file: classified insufficient (200 < 500). -/
def insufficientRun : RunResult := .completed 0 "" (some (xChars 200))

/-- A batch environment in which three of four urls produce a
501-character output and one produces a 5-character output. -/
def scenarioBatchRun : String → UrlRun := fun u =>
  if u == "u4" then .completed 0 "" (some (xChars 5))
  else .completed 0 "" (some (xChars 501))

/-- A page on which the javascript evaluation and the `h1` selector both
yield 150 characters of text. -/
def probeScenarioPage : ProbePage :=
  ⟨fun _ => some (xChars 150), fun sel => if sel == "h1" then some (xChars 150) else none⟩

/-- A page with a clickable expansion trigger whose click leaves the
measured content length unchanged (100 before, 100 after). -/
def unchangedExpansionPage : ExpansionPage := ⟨some 100, fun _ => true, some 100⟩

/-- A syntactically valid artifact that calls `page.evaluate(`, defines
every required function, imports nothing suspicious — and hard-codes the
record id `4300362234` in its text. -/
def hardcodedModule : PyModule :=
  ⟨true, required_functions, [], [], "x = page.evaluate( q )  # 4300362234"⟩

/-- A syntactically valid artifact calling `page.evaluate(` but missing
the required entry point `main`. -/
def missingMainModule : PyModule :=
  ⟨true, ["sanitize_filename", "extract_job_id", "scrape_linkedin_job",
          "format_job_description"], [], [], "x = page.evaluate( q )"⟩

/-- A discovery log whose recorded site id (`indeed`) contradicts the
site that classifies its url (LinkedIn). -/
def mismatchedLog : DiscoveryLogHeader :=
  ⟨some "indeed", some "https://www.linkedin.com/jobs/view/123".data, some "123"⟩

/-- A well-formed log used to witness the amended C8 statement. -/
def wellFormedLog : DiscoveryLogHeader :=
  ⟨some "linkedin", some "https://www.linkedin.com/jobs/view/123".data, some "123"⟩

def gdExampleUrl : List Char :=
  "https://www.glassdoor.com/job-listing/senior-data-engineer-JV_IC12345".data

def gdExampleCanonical : List Char :=
  "https://www.glassdoor.com/job-listing/-JV_IC12345".data

def linkedinExampleUrl : List Char :=
  "https://www.linkedin.com/jobs/view/4300371471/?trk=d_flagship3".data

def linkedinFeedUrl : List Char := "https://www.linkedin.com/feed/".data

def linkedinJobsUrl : List Char := "https://www.linkedin.com/jobs/view/1".data

/-! ## Lemmas about the generic helpers -/

theorem containsSub_nil (l : List Char) : containsSub [] l = true := by
  induction l with
  | nil => rfl
  | cons c rest ih => simp [containsSub, List.isPrefixOf]

theorem isPrefixOf_append_of (p l t : List Char) (h : p.isPrefixOf l = true) :
    p.isPrefixOf (l ++ t) = true := by
  induction p generalizing l with
  | nil => simp [List.isPrefixOf]
  | cons a as ih =>
    cases l with
    | nil => simp [List.isPrefixOf] at h
    | cons b bs =>
      simp only [List.cons_append, List.isPrefixOf, Bool.and_eq_true] at h ⊢
      exact ⟨h.1, ih bs h.2⟩

theorem containsSub_append_left (pat A B : List Char) (h : containsSub pat A = true) :
    containsSub pat (A ++ B) = true := by
  induction A with
  | nil =>
    have hp : pat = [] := by
      simpa [containsSub, List.isEmpty_iff] using h
    subst hp
    exact containsSub_nil B
  | cons a A' ih =>
    rw [List.cons_append]
    rw [containsSub] at h ⊢
    rcases Bool.or_eq_true_iff.mp h with h1 | h2
    · refine Bool.or_eq_true_iff.mpr (Or.inl ?_)
      rw [← List.cons_append]
      exact isPrefixOf_append_of _ _ _ h1
    · exact Bool.or_eq_true_iff.mpr (Or.inr (ih h2))

theorem isPrefixOf_getLast_mem : ∀ (p l : List Char) (c : Char),
    p.isPrefixOf l = true → p.getLast? = some c → c ∈ l := by
  intro p
  induction p with
  | nil => intro l c _ hl; simp at hl
  | cons a as ih =>
    intro l c hp hl
    cases l with
    | nil => simp [List.isPrefixOf] at hp
    | cons b bs =>
      have hab : a = b ∧ as.isPrefixOf bs = true := by
        simpa [List.isPrefixOf, Bool.and_eq_true] using hp
      cases as with
      | nil =>
        have hc : a = c := by simpa using hl
        subst hc
        rw [hab.1]
        exact List.mem_cons_self _ _
      | cons a2 as2 =>
        have hl2 : (a2 :: as2).getLast? = some c := by
          rwa [List.getLast?_cons_cons] at hl
        exact List.mem_cons_of_mem _ (ih bs c hab.2 hl2)

theorem containsSub_getLast_mem : ∀ (pat l : List Char) (c : Char),
    containsSub pat l = true → pat.getLast? = some c → c ∈ l := by
  intro pat l
  induction l with
  | nil =>
    intro c h hc
    have : pat = [] := by simpa [containsSub, List.isEmpty_iff] using h
    subst this; simp at hc
  | cons a rest ih =>
    intro c h hc
    rw [containsSub] at h
    rcases Bool.or_eq_true_iff.mp h with h1 | h2
    · exact isPrefixOf_getLast_mem _ _ _ h1 hc
    · exact List.mem_cons_of_mem _ (ih c h2 hc)

theorem isPrefixOf_append_split : ∀ (p A B : List Char) (c : Char),
    p.getLast? = some c → p.isPrefixOf (A ++ B) = true →
    p.isPrefixOf A = true ∨ c ∈ B := by
  intro p
  induction p with
  | nil => intro A B c hc; simp at hc
  | cons a as ih =>
    intro A B c hc h
    cases A with
    | nil =>
      right
      exact isPrefixOf_getLast_mem _ _ _ (by simpa using h) hc
    | cons b bs =>
      have hab : a = b ∧ as.isPrefixOf (bs ++ B) = true := by
        simpa [List.isPrefixOf, Bool.and_eq_true] using h
      cases as with
      | nil =>
        left
        simp [List.isPrefixOf, hab.1]
      | cons a2 as2 =>
        have hc2 : (a2 :: as2).getLast? = some c := by
          rwa [List.getLast?_cons_cons] at hc
        rcases ih bs B c hc2 hab.2 with h1 | h2
        · left; simp [List.isPrefixOf, hab.1, h1]
        · right; exact h2

theorem containsSub_append_false (pat A B : List Char) (c : Char)
    (hc : pat.getLast? = some c) (hB : c ∉ B) (hA : containsSub pat A = false) :
    containsSub pat (A ++ B) = false := by
  induction A with
  | nil =>
    cases h : containsSub pat B with
    | false => simpa using h
    | true => exact absurd (containsSub_getLast_mem _ _ _ h hc) hB
  | cons a A' ih =>
    rw [containsSub] at hA
    have hA2 : pat.isPrefixOf (a :: A') = false ∧ containsSub pat A' = false := by
      constructor
      · cases h1 : pat.isPrefixOf (a :: A') <;> simp [h1] at hA ⊢
      · cases h2 : containsSub pat A' <;> simp [h2] at hA ⊢
    rw [List.cons_append, containsSub]
    have hp : pat.isPrefixOf (a :: (A' ++ B)) = false := by
      cases h1 : pat.isPrefixOf (a :: (A' ++ B)) with
      | false => rfl
      | true =>
        rw [show a :: (A' ++ B) = (a :: A') ++ B from rfl] at h1
        rcases isPrefixOf_append_split _ _ _ _ hc h1 with h2 | h2
        · rw [h2] at hA2; exact absurd hA2.1 (by simp)
        · exact absurd h2 hB
    rw [hp, ih hA2.2]
    rfl

theorem isPrefixOf_of_append : ∀ (p q l : List Char),
    (p ++ q).isPrefixOf l = true → p.isPrefixOf l = true := by
  intro p
  induction p with
  | nil => intro q l _; simp [List.isPrefixOf]
  | cons a as ih =>
    intro q l h
    cases l with
    | nil => simp [List.isPrefixOf] at h
    | cons b bs =>
      have hab : a = b ∧ (as ++ q).isPrefixOf bs = true := by
        simpa [List.isPrefixOf, Bool.and_eq_true] using h
      simp only [List.isPrefixOf, Bool.and_eq_true]
      exact ⟨by simp [hab.1], ih q bs hab.2⟩

theorem containsSub_of_append (p q l : List Char)
    (h : containsSub (p ++ q) l = true) : containsSub p l = true := by
  induction l with
  | nil =>
    have : p ++ q = [] := by simpa [containsSub, List.isEmpty_iff] using h
    have hp : p = [] := by
      rcases List.append_eq_nil.mp this with ⟨h1, _⟩
      exact h1
    subst hp; rfl
  | cons a rest ih =>
    rw [containsSub] at h ⊢
    rcases Bool.or_eq_true_iff.mp h with h1 | h2
    · exact Bool.or_eq_true_iff.mpr (Or.inl (isPrefixOf_of_append _ _ _ h1))
    · exact Bool.or_eq_true_iff.mpr (Or.inr (ih h2))

theorem ciPrefixMatch_append_right : ∀ (p t s : List Char),
    p.length ≤ t.length → ciPrefixMatch p (t ++ s) = ciPrefixMatch p t := by
  intro p
  induction p with
  | nil => intro t s _; simp [ciPrefixMatch]
  | cons a as ih =>
    intro t s h
    cases t with
    | nil => simp at h
    | cons b bs =>
      simp only [List.cons_append, ciPrefixMatch, List.append_eq]
      rw [ih bs s (by simpa using h)]

theorem scanWith_append_skip (tryAt : List Char → Option (List Char)) :
    ∀ (C s : List Char), (∀ p, p < C.length → tryAt (C.drop p ++ s) = none) →
    scanWith tryAt (C ++ s) = scanWith tryAt s := by
  intro C
  induction C with
  | nil => intro s _; rfl
  | cons c C' ih =>
    intro s h
    have h0 : tryAt (c :: (C' ++ s)) = none := by
      have := h 0 (by simp)
      simpa using this
    rw [List.cons_append, scanWith, h0]
    exact ih s fun p hp => by
      have := h (p + 1) (by simpa using Nat.succ_lt_succ hp)
      simpa using this

theorem takeWhile_of_all (p : Char → Bool) : ∀ (l : List Char),
    l.all p = true → l.takeWhile p = l := by
  intro l
  induction l with
  | nil => intro _; rfl
  | cons a t ih =>
    intro h
    have h2 : p a = true ∧ t.all p = true := by simpa using h
    simp [List.takeWhile_cons, h2.1, ih h2.2]

theorem all_takeWhile (p : Char → Bool) : ∀ (l : List Char),
    (l.takeWhile p).all p = true := by
  intro l
  induction l with
  | nil => rfl
  | cons a t ih =>
    by_cases h : p a = true
    · simp [List.takeWhile_cons, h, ih]
    · simp [List.takeWhile_cons, Bool.eq_false_iff.mpr h]

theorem stripWs_eq_self (l : List Char)
    (h1 : ∀ c, l.head? = some c → c.isWhitespace = false)
    (h2 : ∀ c, l.getLast? = some c → c.isWhitespace = false) :
    stripWs l = l := by
  cases l with
  | nil => rfl
  | cons a t =>
    have ha : a.isWhitespace = false := h1 a rfl
    have hd1 : List.dropWhile Char.isWhitespace (a :: t) = a :: t := by
      rw [List.dropWhile_cons, ha]
      simp
    unfold stripWs
    rw [hd1]
    cases hr : (a :: t).reverse with
    | nil => simp at hr
    | cons b r' =>
      have hb : (a :: t).getLast? = some b := by
        rw [← List.head?_reverse, hr]; rfl
      have hbw : b.isWhitespace = false := h2 b hb
      have hd2 : List.dropWhile Char.isWhitespace (b :: r') = b :: r' := by
        rw [List.dropWhile_cons, hbw]
        simp
      rw [hd2, ← hr, List.reverse_reverse]

/-! ## Character-class facts -/

theorem isDigitChar_not_ws (c : Char) (h : isDigitChar c = true) :
    c.isWhitespace = false := by
  have hm : c ∈ digitChars := by simpa [isDigitChar] using h
  exact (by decide : ∀ x ∈ digitChars, x.isWhitespace = false) c hm

theorem isHexCiChar_not_ws (c : Char) (h : isHexCiChar c = true) :
    c.isWhitespace = false := by
  have hm : c ∈ hexCiChars := by simpa [isHexCiChar] using h
  exact (by decide : ∀ x ∈ hexCiChars, x.isWhitespace = false) c hm

theorem isHexCiChar_toLower_ne_m (c : Char) (h : isHexCiChar c = true) :
    Char.toLower c ≠ 'm' := by
  have hm : c ∈ hexCiChars := by simpa [isHexCiChar] using h
  exact (by decide : ∀ x ∈ hexCiChars, Char.toLower x ≠ 'm') c hm

/-! ## Scanner facts -/

theorem scanWith_spec (tryAt : List Char → Option (List Char)) (P : List Char → Prop)
    (h : ∀ s r, tryAt s = some r → P r) :
    ∀ (u r : List Char), scanWith tryAt u = some r → P r := by
  intro u
  induction u with
  | nil => intro r h'; simp [scanWith] at h'
  | cons c rest ih =>
    intro r h'
    rw [scanWith] at h'
    cases ht : tryAt (c :: rest) with
    | some x =>
      rw [ht] at h'
      simp only [Option.some.injEq] at h'
      exact h' ▸ h _ _ ht
    | none =>
      rw [ht] at h'
      exact ih r h'

theorem tryLinkedinAt_spec (s r : List Char) (h : tryLinkedinAt s = some r) :
    r ≠ [] ∧ r.all isDigitChar = true := by
  unfold tryLinkedinAt at h
  split at h
  · split at h
    · exact absurd h (by simp)
    · rename_i hne
      have hr : (List.takeWhile isDigitChar (s.drop litJobsView.length)) = r := by
        simpa using h
      constructor
      · intro hnil
        rw [hnil] at hr
        rw [hr] at hne
        simp at hne
      · rw [← hr]
        exact all_takeWhile _ _
  · exact absurd h (by simp)

theorem tryIndeedAt_spec (s r : List Char) (h : tryIndeedAt s = some r) :
    r ≠ [] ∧ r.all isHexCiChar = true := by
  unfold tryIndeedAt at h
  split at h
  · split at h
    · exact absurd h (by simp)
    · rename_i hne
      have hr : (List.takeWhile isHexCiChar (s.drop 4)) = r := by
        simpa using h
      constructor
      · intro hnil
        rw [hnil] at hr
        rw [hr] at hne
        simp at hne
      · rw [← hr]
        exact all_takeWhile _ _
  · exact absurd h (by simp)

theorem tryLinkedinAt_none_of (t s : List Char) (hlen : litJobsView.length ≤ t.length)
    (h : ciPrefixMatch litJobsView t = false) : tryLinkedinAt (t ++ s) = none := by
  unfold tryLinkedinAt
  rw [ciPrefixMatch_append_right _ _ _ hlen, h]
  simp

theorem indeedHeadMatch_append (t s : List Char) (hlen : 4 ≤ t.length) :
    indeedHeadMatch (t ++ s) = indeedHeadMatch t := by
  cases t with
  | nil => simp at hlen
  | cons c t' =>
    simp only [List.cons_append, indeedHeadMatch]
    have h3 : litJkEq.length ≤ t'.length := by
      have : t'.length + 1 = (c :: t').length := by simp
      simp only [litJkEq]
      simp at hlen ⊢
      omega
    rw [ciPrefixMatch_append_right _ _ _ h3]

theorem tryIndeedAt_none_of (t s : List Char) (hlen : 4 ≤ t.length)
    (h : indeedHeadMatch t = false) : tryIndeedAt (t ++ s) = none := by
  unfold tryIndeedAt
  rw [indeedHeadMatch_append t s hlen, h]
  simp

/-! ## Behaviour of normalization on canonical urls -/

theorem scan_linkedin_canonical (id : List Char) (h1 : id ≠ []) (h2 : id.all isDigitChar = true) :
    scanWith tryLinkedinAt (canonicalBase .linkedin ++ id) = some id := by
  have hbase : canonicalBase .linkedin = "https://www.linkedin.com".data ++ litJobsView := by
    decide
  have hskip : ∀ p, p < ("https://www.linkedin.com".data).length →
      tryLinkedinAt ("https://www.linkedin.com".data.drop p ++ (litJobsView ++ id)) = none := by
    intro p hp
    rw [← List.append_assoc]
    apply tryLinkedinAt_none_of
    · have hd : ("https://www.linkedin.com".data.drop p).length = 24 - p := by
        simp [List.length_drop]
      have hj : litJobsView.length = 11 := by decide
      simp only [List.length_append, hd, hj]
      omega
    · have hall : ∀ q, q < 24 →
          ciPrefixMatch litJobsView ("https://www.linkedin.com".data.drop q ++ litJobsView) = false := by
        decide
      exact hall p (by
        have : ("https://www.linkedin.com".data).length = 24 := by decide
        omega)
  have hid : id.isEmpty = false := by
    cases id with
    | nil => exact absurd rfl h1
    | cons a t => rfl
  have htry : tryLinkedinAt (litJobsView ++ id) = some id := by
    unfold tryLinkedinAt
    rw [ciPrefixMatch_append_right _ _ _ (le_refl _)]
    rw [(by decide : ciPrefixMatch litJobsView litJobsView = true)]
    rw [List.drop_left, takeWhile_of_all _ _ h2, hid]
    simp
  rw [hbase, List.append_assoc, scanWith_append_skip _ _ _ hskip]
  rw [(show litJobsView ++ id = '/' :: ("jobs/view/".data ++ id) from rfl)]
  rw [scanWith]
  rw [show tryLinkedinAt ('/' :: ("jobs/view/".data ++ id)) = some id from htry]

theorem scan_indeed_canonical (id : List Char) (h1 : id ≠ []) (h2 : id.all isHexCiChar = true) :
    scanWith tryIndeedAt (canonicalBase .indeed ++ id) = some id := by
  have hbase : canonicalBase .indeed = "https://www.indeed.com/viewjob".data ++ "?jk=".data := by
    decide
  have hskip : ∀ p, p < ("https://www.indeed.com/viewjob".data).length →
      tryIndeedAt ("https://www.indeed.com/viewjob".data.drop p ++ ("?jk=".data ++ id)) = none := by
    intro p hp
    rw [← List.append_assoc]
    apply tryIndeedAt_none_of
    · have hd : ("https://www.indeed.com/viewjob".data.drop p).length = 30 - p := by
        simp [List.length_drop]
      have hq : ("?jk=".data).length = 4 := by decide
      simp only [List.length_append, hd, hq]
      omega
    · have hall : ∀ q, q < 30 →
          indeedHeadMatch ("https://www.indeed.com/viewjob".data.drop q ++ "?jk=".data) = false := by
        decide
      exact hall p (by
        have : ("https://www.indeed.com/viewjob".data).length = 30 := by decide
        omega)
  have hid : id.isEmpty = false := by
    cases id with
    | nil => exact absurd rfl h1
    | cons a t => rfl
  have htry : tryIndeedAt ("?jk=".data ++ id) = some id := by
    unfold tryIndeedAt
    rw [(show "?jk=".data ++ id = '?' :: (litJkEq ++ id) from rfl)]
    rw [(show indeedHeadMatch ('?' :: (litJkEq ++ id)) =
          (('?' == '?' || '?' == '&') && ciPrefixMatch litJkEq (litJkEq ++ id)) from rfl)]
    rw [ciPrefixMatch_append_right _ _ _ (le_refl _)]
    rw [(by decide : ciPrefixMatch litJkEq litJkEq = true)]
    rw [(show ('?' :: (litJkEq ++ id)).drop 4 = id from List.drop_left' (by decide))]
    rw [takeWhile_of_all _ _ h2, hid]
    simp
  rw [hbase, List.append_assoc, scanWith_append_skip _ _ _ hskip]
  rw [(show "?jk=".data ++ id = '?' :: (litJkEq ++ id) from rfl)]
  rw [scanWith]
  rw [show tryIndeedAt ('?' :: (litJkEq ++ id)) = some id from htry]

theorem detect_canonical_linkedin (id : List Char) :
    detect_job_site_utils (canonicalBase .linkedin ++ id) = some .linkedin := by
  unfold detect_job_site_utils
  have h1 : containsSub (domain_pattern .linkedin)
      ((canonicalBase .linkedin).map Char.toLower ++ id.map Char.toLower) = true :=
    containsSub_append_left _ _ _ (by decide)
  simp [h1]

theorem detect_canonical_indeed (id : List Char) (h2 : id.all isHexCiChar = true) :
    detect_job_site_utils (canonicalBase .indeed ++ id) = some .indeed := by
  unfold detect_job_site_utils
  have hlk : containsSub (domain_pattern .linkedin)
      ((canonicalBase .indeed).map Char.toLower ++ id.map Char.toLower) = false := by
    apply containsSub_append_false _ _ _ 'm' (by decide) _ (by decide)
    intro hm
    rcases List.mem_map.mp hm with ⟨x, hx, hxm⟩
    exact isHexCiChar_toLower_ne_m x (List.all_eq_true.mp h2 x hx) hxm
  have hin : containsSub (domain_pattern .indeed)
      ((canonicalBase .indeed).map Char.toLower ++ id.map Char.toLower) = true :=
    containsSub_append_left _ _ _ (by decide)
  simp [hlk, hin]

theorem strip_linkedin_canonical (id : List Char) (h1 : id ≠ [])
    (h2 : id.all isDigitChar = true) :
    stripWs (canonicalBase .linkedin ++ id) = canonicalBase .linkedin ++ id := by
  apply stripWs_eq_self
  · intro c hc
    rw [(show canonicalBase .linkedin ++ id =
          'h' :: ("ttps://www.linkedin.com/jobs/view/".data ++ id) from rfl)] at hc
    simp only [List.head?_cons, Option.some.injEq] at hc
    subst hc
    decide
  · intro c hc
    rw [List.getLast?_append_of_ne_nil _ h1] at hc
    exact isDigitChar_not_ws c
      (List.all_eq_true.mp h2 c (List.mem_of_getLast?_eq_some hc))

theorem strip_indeed_canonical (id : List Char) (h1 : id ≠ [])
    (h2 : id.all isHexCiChar = true) :
    stripWs (canonicalBase .indeed ++ id) = canonicalBase .indeed ++ id := by
  apply stripWs_eq_self
  · intro c hc
    rw [(show canonicalBase .indeed ++ id =
          'h' :: ("ttps://www.indeed.com/viewjob?jk=".data ++ id) from rfl)] at hc
    simp only [List.head?_cons, Option.some.injEq] at hc
    subst hc
    decide
  · intro c hc
    rw [List.getLast?_append_of_ne_nil _ h1] at hc
    exact isHexCiChar_not_ws c
      (List.all_eq_true.mp h2 c (List.mem_of_getLast?_eq_some hc))

theorem normalize_linkedin_canonical (id : List Char) (h1 : id ≠ [])
    (h2 : id.all isDigitChar = true) :
    normalize_job_url (canonicalBase .linkedin ++ id) =
      .ok ⟨.linkedin, id, canonicalBase .linkedin ++ id, canonicalBase .linkedin ++ id⟩ := by
  unfold normalize_job_url
  have hne : (canonicalBase .linkedin ++ id).isEmpty = false := rfl
  rw [hne]
  simp only [Bool.false_eq_true, if_false]
  rw [strip_linkedin_canonical id h1 h2]
  have hext : extract_job_id_utils (canonicalBase .linkedin ++ id) .linkedin = some id :=
    scan_linkedin_canonical id h1 h2
  simp [detect_canonical_linkedin id, hext]

theorem normalize_indeed_canonical (id : List Char) (h1 : id ≠ [])
    (h2 : id.all isHexCiChar = true) :
    normalize_job_url (canonicalBase .indeed ++ id) =
      .ok ⟨.indeed, id, canonicalBase .indeed ++ id, canonicalBase .indeed ++ id⟩ := by
  unfold normalize_job_url
  have hne : (canonicalBase .indeed ++ id).isEmpty = false := rfl
  rw [hne]
  simp only [Bool.false_eq_true, if_false]
  rw [strip_indeed_canonical id h1 h2]
  have hext : extract_job_id_utils (canonicalBase .indeed ++ id) .indeed = some id :=
    scan_indeed_canonical id h1 h2
  simp [detect_canonical_indeed id h2, hext]

/-! ## Prober facts -/

theorem mem_jsResults (page : ProbePage) (field : String) (r : StrategyResult)
    (h : r ∈ jsResults page field) :
    r.strategy = "javascript_evaluation" ∧
    r.confidence = (if 100 < r.sampleLength then "high" else "medium") := by
  unfold jsResults at h
  split at h
  · simp at h
  · split at h
    · simp at h
    · split at h
      · simp only [List.mem_singleton] at h
        subst h
        exact ⟨rfl, rfl⟩
      · simp at h

theorem mem_cssResults (page : ProbePage) (field : String) (r : StrategyResult)
    (h : r ∈ cssResults page field) :
    r.strategy = "css_selector" ∧
    r.confidence = (if 50 < r.sampleLength then "medium" else "low") := by
  unfold cssResults at h
  rw [List.mem_filterMap] at h
  rcases h with ⟨sel, _, hf⟩
  split at hf
  · simp at hf
  · split at hf
    · simp only [Option.some.injEq] at hf
      subst hf
      exact ⟨rfl, rfl⟩
    · simp at hf

theorem mem_probe_raw (page : ProbePage) (field : String) (r : StrategyResult)
    (h : r ∈ jsResults page field ++ cssResults page field) :
    (r.strategy = "javascript_evaluation" ∧
      r.confidence = (if 100 < r.sampleLength then "high" else "medium")) ∨
    (r.strategy = "css_selector" ∧
      r.confidence = (if 50 < r.sampleLength then "medium" else "low")) := by
  rcases List.mem_append.mp h with h | h
  · exact Or.inl (mem_jsResults _ _ _ h)
  · exact Or.inr (mem_cssResults _ _ _ h)

theorem mem_sortByConfidence (l : List StrategyResult) (r : StrategyResult)
    (h : r ∈ sortByConfidence l) : r ∈ l := by
  simp only [sortByConfidence, List.mem_append, List.mem_filter] at h
  rcases h with h | h | h | h <;> exact h.1

theorem confidence_order_le_three (c : String) : confidence_order c ≤ 3 := by
  unfold confidence_order
  split
  · omega
  · split
    · omega
    · split
      · omega
      · omega

theorem css_conf_le_js_conf (L : Nat) :
    confidence_order (if 50 < L then "medium" else "low") ≤
      confidence_order (if 100 < L then "high" else "medium") := by
  by_cases h1 : 100 < L <;> by_cases h2 : 50 < L <;>
    simp only [h1, h2, if_true, if_false] <;> decide

theorem pairwise_filter_block (l : List StrategyResult) (k : Nat) :
    (l.filter (fun r => confidence_order r.confidence == k)).Pairwise
      (fun a b => confidence_order b.confidence ≤ confidence_order a.confidence) := by
  apply List.pairwise_of_forall_mem_list
  intro a ha b hb
  have ha2 : confidence_order a.confidence = k := by
    simpa using (List.mem_filter.mp ha).2
  have hb2 : confidence_order b.confidence = k := by
    simpa using (List.mem_filter.mp hb).2
  omega

theorem filter_block_le (l : List StrategyResult) (j k : Nat) (hjk : k ≤ j)
    (a b : StrategyResult)
    (ha : a ∈ l.filter (fun r => confidence_order r.confidence == j))
    (hb : b ∈ l.filter (fun r => confidence_order r.confidence == k)) :
    confidence_order b.confidence ≤ confidence_order a.confidence := by
  have ha2 : confidence_order a.confidence = j := by
    simpa using (List.mem_filter.mp ha).2
  have hb2 : confidence_order b.confidence = k := by
    simpa using (List.mem_filter.mp hb).2
  omega

theorem sortByConfidence_sorted (l : List StrategyResult) :
    (sortByConfidence l).Pairwise
      (fun a b => confidence_order b.confidence ≤ confidence_order a.confidence) := by
  unfold sortByConfidence
  rw [List.pairwise_append]
  refine ⟨pairwise_filter_block l 3, ?_, ?_⟩
  · rw [List.pairwise_append]
    refine ⟨pairwise_filter_block l 2, ?_, ?_⟩
    · rw [List.pairwise_append]
      refine ⟨pairwise_filter_block l 1, pairwise_filter_block l 0, ?_⟩
      intro a ha b hb
      exact filter_block_le l 1 0 (by omega) a b ha hb
    · intro a ha b hb
      rcases List.mem_append.mp hb with hb | hb
      · exact filter_block_le l 2 1 (by omega) a b ha hb
      · exact filter_block_le l 2 0 (by omega) a b ha hb
  · intro a ha b hb
    rcases List.mem_append.mp hb with hb | hb
    · exact filter_block_le l 3 2 (by omega) a b ha hb
    · rcases List.mem_append.mp hb with hb | hb
      · exact filter_block_le l 3 1 (by omega) a b ha hb
      · exact filter_block_le l 3 0 (by omega) a b ha hb

theorem filter_conf_and_self (l : List StrategyResult) (k : Nat) :
    (l.filter (fun r => confidence_order r.confidence == k)).filter
        (fun r => confidence_order r.confidence == k) =
      l.filter (fun r => confidence_order r.confidence == k) := by
  rw [List.filter_filter]
  apply List.filter_congr
  intro a _
  cases h : (confidence_order a.confidence == k) <;> simp [h]

theorem filter_conf_ne_nil (l : List StrategyResult) (j k : Nat) (h : j ≠ k) :
    (l.filter (fun r => confidence_order r.confidence == j)).filter
        (fun r => confidence_order r.confidence == k) = [] := by
  rw [List.filter_filter]
  rw [List.filter_eq_nil_iff]
  intro a _
  simp only [Bool.and_eq_true, beq_iff_eq, not_and]
  intro hj hk
  exact h (hj ▸ hk ▸ rfl)

theorem filter_conf_gt_nil (l : List StrategyResult) (k : Nat) (h : 3 < k) :
    l.filter (fun r => confidence_order r.confidence == k) = [] := by
  rw [List.filter_eq_nil_iff]
  intro a _
  simp only [beq_iff_eq]
  have := confidence_order_le_three a.confidence
  omega

theorem sortByConfidence_filter_eq (l : List StrategyResult) (c : Nat) :
    (sortByConfidence l).filter (fun r => confidence_order r.confidence == c) =
      l.filter (fun r => confidence_order r.confidence == c) := by
  unfold sortByConfidence
  rw [List.filter_append, List.filter_append, List.filter_append]
  by_cases h3 : c = 3
  · subst h3
    rw [filter_conf_and_self, filter_conf_ne_nil l 2 3 (by omega),
        filter_conf_ne_nil l 1 3 (by omega), filter_conf_ne_nil l 0 3 (by omega)]
    simp
  · by_cases h2 : c = 2
    · subst h2
      rw [filter_conf_and_self, filter_conf_ne_nil l 3 2 (by omega),
          filter_conf_ne_nil l 1 2 (by omega), filter_conf_ne_nil l 0 2 (by omega)]
      simp
    · by_cases h1 : c = 1
      · subst h1
        rw [filter_conf_and_self, filter_conf_ne_nil l 3 1 (by omega),
            filter_conf_ne_nil l 2 1 (by omega), filter_conf_ne_nil l 0 1 (by omega)]
        simp
      · by_cases h0 : c = 0
        · subst h0
          rw [filter_conf_and_self, filter_conf_ne_nil l 3 0 (by omega),
              filter_conf_ne_nil l 2 0 (by omega), filter_conf_ne_nil l 1 0 (by omega)]
          simp
        · have hc : 3 < c := by omega
          rw [filter_conf_ne_nil l 3 c (by omega), filter_conf_ne_nil l 2 c (by omega),
              filter_conf_ne_nil l 1 c (by omega), filter_conf_ne_nil l 0 c (by omega),
              filter_conf_gt_nil l c hc]
          simp

theorem probe_raw_no_inversion (page : ProbePage) (field : String) :
    (jsResults page field ++ cssResults page field).Pairwise
      (fun a b => ¬(a.strategy = "css_selector" ∧ b.strategy = "javascript_evaluation" ∧
                    a.sampleLength = b.sampleLength)) := by
  rw [List.pairwise_append]
  refine ⟨?_, ?_, ?_⟩
  · apply List.pairwise_of_forall_mem_list
    intro a ha _ _ hcon
    have := (mem_jsResults _ _ _ ha).1
    rw [hcon.1] at this
    exact absurd this (by decide)
  · apply List.pairwise_of_forall_mem_list
    intro _ _ b hb hcon
    have := (mem_cssResults _ _ _ hb).1
    rw [hcon.2.1] at this
    exact absurd this (by decide)
  · intro a ha _ _ hcon
    have := (mem_jsResults _ _ _ ha).1
    rw [hcon.1] at this
    exact absurd this (by decide)

theorem probe_cross_no_inversion (page : ProbePage) (field : String) (j k : Nat)
    (hjk : k < j) (a b : StrategyResult)
    (ha : a ∈ (jsResults page field ++ cssResults page field).filter
        (fun r => confidence_order r.confidence == j))
    (hb : b ∈ (jsResults page field ++ cssResults page field).filter
        (fun r => confidence_order r.confidence == k)) :
    ¬(a.strategy = "css_selector" ∧ b.strategy = "javascript_evaluation" ∧
      a.sampleLength = b.sampleLength) := by
  intro hcon
  have haj : confidence_order a.confidence = j := by
    simpa using (List.mem_filter.mp ha).2
  have hbk : confidence_order b.confidence = k := by
    simpa using (List.mem_filter.mp hb).2
  have haraw := mem_probe_raw page field a (List.mem_filter.mp ha).1
  have hbraw := mem_probe_raw page field b (List.mem_filter.mp hb).1
  rcases haraw with ⟨hstr, _⟩ | ⟨_, hconf⟩
  · rw [hcon.1] at hstr; exact absurd hstr (by decide)
  · rcases hbraw with ⟨_, hconf'⟩ | ⟨hstr', _⟩
    · have hle := css_conf_le_js_conf a.sampleLength
      rw [← hconf, hcon.2.2, ← hconf'] at hle
      omega
    · rw [hcon.2.1] at hstr'; exact absurd hstr' (by decide)

theorem probe_no_inversion (page : ProbePage) (field : String) :
    (test_extraction_strategies page field).Pairwise
      (fun a b => ¬(a.strategy = "css_selector" ∧ b.strategy = "javascript_evaluation" ∧
                    a.sampleLength = b.sampleLength)) := by
  have hraw := probe_raw_no_inversion page field
  unfold test_extraction_strategies sortByConfidence
  rw [List.pairwise_append]
  refine ⟨hraw.sublist (List.filter_sublist _), ?_, ?_⟩
  · rw [List.pairwise_append]
    refine ⟨hraw.sublist (List.filter_sublist _), ?_, ?_⟩
    · rw [List.pairwise_append]
      refine ⟨hraw.sublist (List.filter_sublist _), hraw.sublist (List.filter_sublist _), ?_⟩
      intro a ha b hb
      exact probe_cross_no_inversion page field 1 0 (by omega) a b ha hb
    · intro a ha b hb
      rcases List.mem_append.mp hb with hb | hb
      · exact probe_cross_no_inversion page field 2 1 (by omega) a b ha hb
      · exact probe_cross_no_inversion page field 2 0 (by omega) a b ha hb
  · intro a ha b hb
    rcases List.mem_append.mp hb with hb | hb
    · exact probe_cross_no_inversion page field 3 2 (by omega) a b ha hb
    · rcases List.mem_append.mp hb with hb | hb
      · exact probe_cross_no_inversion page field 3 1 (by omega) a b ha hb
      · exact probe_cross_no_inversion page field 3 0 (by omega) a b ha hb

/-! ## Validation-loop facts -/

theorem bumpAttempt_snd (p : ValidationOutcome × Nat) :
    (bumpAttempt p).2 = p.2 + 1 := rfl

theorem bumpAttempt_fst (p : ValidationOutcome × Nat) :
    (bumpAttempt p).1 = p.1 := rfl

theorem validation_attempts_le (l : List RunResult) :
    (validate_generated_script l).2 ≤ l.length := by
  induction l with
  | nil => simp [validate_generated_script]
  | cons r rest ih =>
    cases r with
    | timeout =>
      by_cases he : rest.isEmpty
      · simp [validate_generated_script, he]
      · simp [validate_generated_script, he, bumpAttempt_snd]
        omega
    | completed code stderr file =>
      by_cases hc : code ≠ 0
      · by_cases he : rest.isEmpty
        · simp [validate_generated_script, hc, he]
        · simp [validate_generated_script, hc, he, bumpAttempt_snd]
          omega
      · cases file with
        | none =>
          by_cases he : rest.isEmpty
          · simp [validate_generated_script, hc, he]
          · simp [validate_generated_script, hc, he, bumpAttempt_snd]
            omega
        | some content =>
          by_cases hs : sufficientOutput content
          · simp [validate_generated_script, hc, hs]
          · by_cases he : rest.isEmpty
            · simp [validate_generated_script, hc, hs, he]
            · simp [validate_generated_script, hc, hs, he, bumpAttempt_snd]
              omega

theorem validation_attempts_pos (l : List RunResult) (h : l ≠ []) :
    1 ≤ (validate_generated_script l).2 := by
  cases l with
  | nil => exact absurd rfl h
  | cons r rest =>
    cases r with
    | timeout =>
      by_cases he : rest.isEmpty <;>
        simp [validate_generated_script, he, bumpAttempt_snd]
    | completed code stderr file =>
      by_cases hc : code ≠ 0
      · by_cases he : rest.isEmpty <;>
          simp [validate_generated_script, hc, he, bumpAttempt_snd]
      · cases file with
        | none =>
          by_cases he : rest.isEmpty <;>
            simp [validate_generated_script, hc, he, bumpAttempt_snd]
        | some content =>
          by_cases hs : sufficientOutput content
          · simp [validate_generated_script, hc, hs]
          · by_cases he : rest.isEmpty <;>
              simp [validate_generated_script, hc, hs, he, bumpAttempt_snd]

theorem sufficientOutput_iff (content : String) :
    sufficientOutput content = true ↔
      (500 < content.length ∧
        (strContains content "About" = true ∨
         strContains (pyLower content) "responsibilities" = true ∨
         strContains (pyLower content) "description" = true)) := by
  simp [sufficientOutput, Bool.and_eq_true, Bool.or_eq_true, decide_eq_true_iff, or_assoc]

/-! ## Claim theorems -/

/-- C1 (amended): for every run of the validation loop the number of
attempts performed never exceeds the configured maximum (the length of
the outcome list), the loop ends in exactly one terminal state, Passed or
Failed — where Failed carries the final attempt-local failure reason(s) only,
reasons of earlier attempts being discarded — and with max_attempts = 3,
three consecutive insufficient-content outcomes (length 200 < 500) yield
terminal Failed after exactly 3 attempts. -/
theorem C1_validation_loop_bounded_terminal :
    (∀ outcomes : List RunResult,
        (validate_generated_script outcomes).2 ≤ outcomes.length ∧
        ((validate_generated_script outcomes).1 = .passed ∨
          ∃ rs, (validate_generated_script outcomes).1 = .failed rs)) ∧
    validate_generated_script [insufficientRun, insufficientRun, insufficientRun] =
      (.failed ["Output too short (200 chars) or missing key content"], 3) := by
  constructor
  · intro outcomes
    refine ⟨validation_attempts_le outcomes, ?_⟩
    cases h : (validate_generated_script outcomes).1 with
    | passed => exact Or.inl rfl
    | failed rs => exact Or.inr ⟨rs, rfl⟩
  · decide

/-- C1 counterexample: the claim says terminal Failed returns the
*accumulated* failure reasons, but on a run whose first two attempts time
out and whose last produces insufficient content, the returned reason
list contains only the final attempt-local message — the timeout reasons of
attempts one and two are not in it. -/
theorem C1_cex_reasons_not_accumulated :
    validate_generated_script [.timeout, .timeout, insufficientRun] =
      (.failed ["Output too short (200 chars) or missing key content"], 3) ∧
    "Script execution timeout (90s)" ∉
      ["Output too short (200 chars) or missing key content"] := by
  constructor
  · decide
  · decide

/-- C4 (confirmed): the validation loop reaches terminal Passed on an
attempt exactly when that attempt-local script run exits 0 and writes an
output file whose content has length strictly greater than 500 and
contains the substring About, or (case-insensitively) responsibilities
or description. -/
theorem C4_sufficient_iff_passes :
    ∀ (content : String) (rest : List RunResult),
      validate_generated_script (.completed 0 "" (some content) :: rest) = (.passed, 1) ↔
        (500 < content.length ∧
          (strContains content "About" = true ∨
           strContains (pyLower content) "responsibilities" = true ∨
           strContains (pyLower content) "description" = true)) := by
  intro content rest
  have hunf : validate_generated_script (.completed 0 "" (some content) :: rest) =
      if sufficientOutput content then (.passed, 1)
      else if rest.isEmpty then
        (.failed ["Output too short (" ++ toString content.length ++
                  " chars) or missing key content"], 1)
      else bumpAttempt (validate_generated_script rest) := by
    simp [validate_generated_script]
  constructor
  · intro h
    rw [hunf] at h
    by_cases hs : sufficientOutput content
    · exact (sufficientOutput_iff content).mp hs
    · exfalso
      rw [if_neg hs] at h
      by_cases he : rest.isEmpty
      · rw [if_pos he] at h
        simp at h
      · rw [if_neg he] at h
        have h2 := congrArg Prod.snd h
        rw [bumpAttempt_snd] at h2
        have h3 := validation_attempts_pos rest (by
          intro hnil
          rw [hnil] at he
          exact he rfl)
        simp at h2
        omega
  · intro hp
    rw [hunf, if_pos ((sufficientOutput_iff content).mpr hp)]

/-- C5 (confirmed): the multi-document harness reports success rate
100 × passed / total for a non-empty url list, reports 0.0 for an empty
list without dividing, and a batch of 4 urls with 3 passes reports
75.0. -/
theorem C5_success_rate :
    (∀ run : String → UrlRun, (validate_scraper_multi_job run []).1 = 0) ∧
    (∀ (run : String → UrlRun) (urls : List String), urls ≠ [] →
      (validate_scraper_multi_job run urls).1 =
        100 * (((urls.map (runTestUrl run)).filter (·.success)).length : ℚ) /
          (urls.length : ℚ)) ∧
    (validate_scraper_multi_job scenarioBatchRun ["u1", "u2", "u3", "u4"]).1 = 75 := by
  refine ⟨fun run => rfl, ?_, ?_⟩
  · intro run urls h
    have he : urls.isEmpty = false := by
      cases urls with
      | nil => exact absurd rfl h
      | cons a t => rfl
    simp only [validate_scraper_multi_job, he, Bool.false_eq_true, if_false]
    rw [List.length_map]
    ring
  · have h0 : (["u1", "u2", "u3", "u4"] : List String).isEmpty = false := rfl
    have h1 : ((["u1", "u2", "u3", "u4"].map (runTestUrl scenarioBatchRun)).filter
        (·.success)).length = 3 := by decide
    have h2 : (["u1", "u2", "u3", "u4"].map (runTestUrl scenarioBatchRun)).length = 4 := by
      decide
    simp only [validate_scraper_multi_job, h0, Bool.false_eq_true, if_false]
    rw [h1, h2]
    norm_num

/-- C5 witness: the general formula applied to the singleton batch. -/
theorem C5_success_rate_witness :
    (["u1"] : List String) ≠ [] ∧
    (validate_scraper_multi_job scenarioBatchRun ["u1"]).1 =
      100 * (((["u1"].map (runTestUrl scenarioBatchRun)).filter (·.success)).length : ℚ) /
        ((["u1"] : List String).length : ℚ) :=
  ⟨by decide, C5_success_rate.2.1 scenarioBatchRun ["u1"] (by decide)⟩

/-- C2 (confirmed): every entry of the returned list of the prober carries
confidence derived from its kind and recorded sample length —
javascript_evaluation gets high iff length > 100 (else medium),
css_selector gets medium iff length > 50 (else low) — and on a page
yielding 150 characters for both kinds the returned list is exactly the
high javascript result followed by the medium css result. -/
theorem C2_confidence_assignment :
    (∀ (page : ProbePage) (field : String) (r : StrategyResult),
        r ∈ test_extraction_strategies page field →
        (r.strategy = "javascript_evaluation" →
          r.confidence = (if 100 < r.sampleLength then "high" else "medium")) ∧
        (r.strategy = "css_selector" →
          r.confidence = (if 50 < r.sampleLength then "medium" else "low"))) ∧
    test_extraction_strategies probeScenarioPage "title" =
      [⟨"javascript_evaluation",
        "document.querySelector(\x27h1\x27)?.textContent?.trim()",
        true, xChars 150, 150, "high"⟩,
       ⟨"css_selector", "h1", true, xChars 150, 150, "medium"⟩] := by
  constructor
  · intro page field r h
    have h2 := mem_probe_raw page field r (mem_sortByConfidence _ r h)
    constructor
    · intro hjs
      rcases h2 with ⟨_, hc⟩ | ⟨hcss, _⟩
      · exact hc
      · rw [hjs] at hcss
        exact absurd hcss (by decide)
    · intro hcss
      rcases h2 with ⟨hjs, _⟩ | ⟨_, hc⟩
      · rw [hcss] at hjs
        exact absurd hjs (by decide)
      · exact hc
  · decide

/-- C2 witness: the confidence-assignment rule applied to the concrete
css member of the scenario run. -/
theorem C2_confidence_assignment_witness :
    (⟨"css_selector", "h1", true, xChars 150, 150, "medium"⟩ : StrategyResult) ∈
        test_extraction_strategies probeScenarioPage "title" ∧
    (⟨"css_selector", "h1", true, xChars 150, 150, "medium"⟩ : StrategyResult).confidence =
      (if 50 < (⟨"css_selector", "h1", true, xChars 150, 150,
          "medium"⟩ : StrategyResult).sampleLength then "medium" else "low") :=
  ⟨by decide,
   (C2_confidence_assignment.1 probeScenarioPage "title" _ (by decide)).2 rfl⟩

/-- C3 (confirmed): the returned list of the prober is sorted non-increasing
in confidence tier; per tier the discovery order is preserved (filtering
the output at any tier value gives exactly the filtered pre-sort list,
which holds the javascript result first and then the css results in
selector order); and no css_selector entry ever precedes a
javascript_evaluation entry of equal recorded sample length. -/
theorem C3_strategy_ordering :
    ∀ (page : ProbePage) (field : String),
      (test_extraction_strategies page field).Pairwise
        (fun a b => confidence_order b.confidence ≤ confidence_order a.confidence) ∧
      (∀ c : Nat,
        (test_extraction_strategies page field).filter
            (fun r => confidence_order r.confidence == c) =
          (jsResults page field ++ cssResults page field).filter
            (fun r => confidence_order r.confidence == c)) ∧
      (test_extraction_strategies page field).Pairwise
        (fun a b => ¬(a.strategy = "css_selector" ∧ b.strategy = "javascript_evaluation" ∧
                      a.sampleLength = b.sampleLength)) :=
  fun page field =>
    ⟨sortByConfidence_sorted _, fun c => sortByConfidence_filter_eq _ c,
     probe_no_inversion page field⟩

/-- C6 counterexample: on a page whose first expansion trigger fires but
whose measured content length is unchanged by the click (100 before and
after), the prober returns needed = true, contradicting the claim that
needed = false whenever the length is unchanged. -/
theorem C6_cex_unchanged_length_still_needed :
    (test_show_more_button unchangedExpansionPage).needed = true ∧
    (test_show_more_button unchangedExpansionPage).after_length =
      (test_show_more_button unchangedExpansionPage).before_length := by
  constructor
  · decide
  · decide

/-- C6 (amended): the interaction prober returns needed = false exactly
when the baseline measurement fails or no expansion trigger fires;
whenever a trigger fires it returns needed = true, even when the
measured length is unchanged (the unchanged measurement is only
reflected in the before/after fields). -/
theorem C6_needed_iff_trigger_fires :
    ∀ page : ExpansionPage,
      (test_show_more_button page).needed = true ↔
        ((∃ b, page.descBefore = some b) ∧
          ∃ sel ∈ button_selectors, page.clickSucceeds sel = true) := by
  intro page
  unfold test_show_more_button
  cases hb : page.descBefore with
  | none => simp
  | some before =>
    cases hf : button_selectors.find? page.clickSucceeds with
    | none =>
      simp only [List.find?_eq_none] at hf
      simp
      intro x hx
      simpa using hf x hx
    | some sel =>
      simp
      exact ⟨sel, List.mem_of_find?_eq_some hf, List.find?_some hf⟩

/-! ## Generation-gate facts -/

theorem generationGate_failed_iff (m : PyModule) :
    (∃ msg, generationGate m = .failed msg) ↔
      (m.parsesOk = false ∨ strContains m.text "page.evaluate(" = false) := by
  cases hp : m.parsesOk with
  | false => simp [generationGate, hp]
  | true =>
    cases he : strContains m.text "page.evaluate(" with
    | false => simp [generationGate, hp, he]
    | true => simp [generationGate, hp, he]

theorem generationGate_persisted_warnings (m : PyModule) (hp : m.parsesOk = true)
    (he : strContains m.text "page.evaluate(" = true) :
    generationGate m = .persisted
      ((if strContains m.text "page.wait_for_selector(" &&
            strContains m.text "for selector in" then
          ["Script appears to use CSS selector loops (fragile pattern)"] else []) ++
        (if (validate_script_structure m).1 then []
         else ["Script validation issues: " ++
               String.intercalate ", " (validate_script_structure m).2])) := by
  simp [generationGate, hp, he]

theorem validate_structure_invalid_of_missing (m : PyModule) (hp : m.parsesOk = true)
    (f : String) (hfr : f ∈ required_functions) (hfn : f ∉ m.functionNames) :
    (validate_script_structure m).1 = false := by
  have hc : (m.functionNames.contains f) = false := by
    cases hc : m.functionNames.contains f with
    | false => rfl
    | true => exact absurd (by simpa using hc) hfn
  have hmem : f ∈ required_functions.filter (fun g => !(m.functionNames.contains g)) :=
    List.mem_filter.mpr ⟨hfr, by rw [hc]; rfl⟩
  have hmi : (required_functions.filter
      (fun g => !(m.functionNames.contains g))).isEmpty = false := by
    cases hh : (required_functions.filter
        (fun g => !(m.functionNames.contains g))).isEmpty with
    | false => rfl
    | true =>
      rw [List.isEmpty_iff] at hh
      rw [hh] at hmem
      simp at hmem
  simp only [validate_script_structure, hp, if_true]
  rw [hmi]
  simp

/-- C7 counterexample: a syntactically valid artifact that calls
`page.evaluate(`, defines every required entry point, and hard-codes the
record id 4300362234 is persisted with an *empty* warning list — the
hard-coded record-specific value is not even warned about, contradicting
the claim that it produces a warning. -/
theorem C7_cex_hardcoded_value_unflagged :
    generationGate hardcodedModule = .persisted [] ∧
    strContains hardcodedModule.text "4300362234" = true := by
  constructor
  · decide
  · decide

/-- C7 (amended): generation hard-fails exactly when the synthesized
text does not parse or lacks a `page.evaluate(` call; a missing required
entry point only adds a warning while the artifact is still persisted;
and hard-coded record-specific values are not checked at all — the
outcome of the gate depends only on syntax validity, the three inspected
substrings, the function names and the imports, so two artifacts
agreeing on those observations (one with a hard-coded record id, one
without) are treated identically. -/
theorem C7_generation_gate (m : PyModule) :
    ((∃ msg, generationGate m = .failed msg) ↔
      (m.parsesOk = false ∨ strContains m.text "page.evaluate(" = false)) ∧
    (m.parsesOk = true → strContains m.text "page.evaluate(" = true →
      ∃ w, generationGate m = .persisted w ∧
        ((∃ f ∈ required_functions, f ∉ m.functionNames) → w ≠ [])) ∧
    (∀ m' : PyModule, m.parsesOk = m'.parsesOk →
      m.functionNames = m'.functionNames →
      m.importNames = m'.importNames →
      m.importFromNames = m'.importFromNames →
      strContains m.text "page.evaluate(" = strContains m'.text "page.evaluate(" →
      strContains m.text "page.wait_for_selector(" =
        strContains m'.text "page.wait_for_selector(" →
      strContains m.text "for selector in" = strContains m'.text "for selector in" →
      generationGate m = generationGate m') := by
  refine ⟨generationGate_failed_iff m, ?_, ?_⟩
  · intro hp he
    refine ⟨_, generationGate_persisted_warnings m hp he, ?_⟩
    intro hmiss
    rcases hmiss with ⟨f, hfr, hfn⟩
    have hv := validate_structure_invalid_of_missing m hp f hfr hfn
    simp [hv]
  · intro m' h1 h2 h3 h4 h5 h6 h7
    simp only [generationGate, validate_script_structure, h1, h2, h3, h4, h5, h6, h7]

/-- C7 witness: the artifact missing the `main` entry point is persisted
with a non-empty warning list. -/
theorem C7_generation_gate_witness :
    ∃ w, generationGate missingMainModule = .persisted w ∧ w ≠ [] := by
  have h := (C7_generation_gate missingMainModule).2.1 rfl (by decide)
  rcases h with ⟨w, hw, hne⟩
  exact ⟨w, hw, hne ⟨"main", by decide, by decide⟩⟩

/-- C8 counterexample: a discovery log recording site id `indeed` while
its url classifies as LinkedIn passes the generation precheck with
`.ok indeed` — the mismatch is not a hard error (not an error at all). -/
theorem C8_cex_site_mismatch_not_an_error :
    generationPrecheck mismatchedLog = .ok .indeed ∧
    detect_job_site_ai "https://www.linkedin.com/jobs/view/123".data = .ok .linkedin := by
  constructor
  · rfl
  · rfl

/-- C8 (amended): the recorded site id is trusted without any
cross-check against the url — with a site name and a non-empty job_id
present, the generation precheck is exactly the Enum lookup of the
recorded name, whatever the url field holds; a hard error occurs only
for an unregistered site name (or, with no site recorded, an absent or
unclassifiable url, or a missing/empty job_id). -/
theorem C8_recorded_site_trusted (name : String) (url : Option (List Char)) (j : String)
    (hj : j ≠ "") :
    generationPrecheck ⟨some name, url, some j⟩ = jobSiteFromName name := by
  have hjb : (j == "") = false := by
    cases hb : j == "" with
    | false => rfl
    | true => exact absurd (by simpa using hb) hj
  unfold generationPrecheck resolveGenerationSite
  dsimp only
  cases hn : jobSiteFromName name with
  | error e => simp
  | ok site => simp [hjb]

/-- C8 witness: the rule applied to a well-formed LinkedIn log. -/
theorem C8_recorded_site_trusted_witness :
    generationPrecheck wellFormedLog = jobSiteFromName "linkedin" :=
  C8_recorded_site_trusted "linkedin"
    (some "https://www.linkedin.com/jobs/view/123".data) "123" (by decide)

/-- C9 counterexample: a Glassdoor url normalizes fine, but its
canonical url (`job-listing` followed directly by `-JV_IC12345`) cannot
be re-normalized: the id pattern requires at least one character between
the `job-listing` path segment and `-JV_IC`, which the canonical
template does not produce, so the round trip raises instead of
succeeding. -/
theorem C9_cex_glassdoor_roundtrip_fails :
    normalize_job_url gdExampleUrl =
      .ok ⟨.glassdoor, "12345".data, gdExampleUrl, gdExampleCanonical⟩ ∧
    normalize_job_url gdExampleCanonical = .error "Could not extract job ID" := by
  constructor
  · rfl
  · rfl

/-- C9 (amended): for every url accepted by normalize_job_url whose site
is LinkedIn or Indeed, normalizing the produced canonical_url succeeds
again with the same site and job_id (and the same canonical url); for
the third registered site, Glassdoor, the round trip fails. -/
theorem C9_roundtrip_linkedin_indeed :
    ∀ (url : List Char) (r : JobURL), normalize_job_url url = .ok r →
      r.site ≠ .glassdoor →
      normalize_job_url r.canonical_url =
        .ok ⟨r.site, r.job_id, r.canonical_url, r.canonical_url⟩ := by
  intro url r h hsite
  unfold normalize_job_url at h
  split at h
  · exact absurd h (by simp)
  · simp only [] at h
    split at h
    · exact absurd h (by simp)
    · rename_i site hdet
      split at h
      · exact absurd h (by simp)
      · rename_i id hext
        have hr : r = ⟨site, id, stripWs url, canonicalBase site ++ id⟩ := by
          injection h with h'
          exact h'.symm
        subst hr
        cases site with
        | linkedin =>
          have hspec := scanWith_spec tryLinkedinAt _
            (fun s r2 hh => tryLinkedinAt_spec s r2 hh) _ _ hext
          exact normalize_linkedin_canonical id hspec.1 hspec.2
        | indeed =>
          have hspec := scanWith_spec tryIndeedAt _
            (fun s r2 hh => tryIndeedAt_spec s r2 hh) _ _ hext
          exact normalize_indeed_canonical id hspec.1 hspec.2
        | glassdoor => exact absurd rfl hsite

/-- C9 witness: the round trip on a concrete LinkedIn url with tracking
parameters. -/
theorem C9_roundtrip_witness :
    normalize_job_url linkedinExampleUrl =
      .ok ⟨.linkedin, "4300371471".data, linkedinExampleUrl,
           "https://www.linkedin.com/jobs/view/4300371471".data⟩ ∧
    normalize_job_url "https://www.linkedin.com/jobs/view/4300371471".data =
      .ok ⟨.linkedin, "4300371471".data,
           "https://www.linkedin.com/jobs/view/4300371471".data,
           "https://www.linkedin.com/jobs/view/4300371471".data⟩ := by
  constructor
  · rfl
  · exact C9_roundtrip_linkedin_indeed linkedinExampleUrl
      ⟨.linkedin, "4300371471".data, linkedinExampleUrl,
       "https://www.linkedin.com/jobs/view/4300371471".data⟩ rfl (by decide)

/-- C10 counterexample: on `https://www.linkedin.com/feed/` the two
classifiers disagree — url_utils.detect_job_site classifies it as
LinkedIn (domain match) while ai_parser.detect_job_site raises
ValueError (its pattern also requires the `/jobs` path), refuting the
claimed equivalence. -/
theorem C10_cex_classifiers_disagree :
    detect_job_site_utils linkedinFeedUrl = some .linkedin ∧
    detect_job_site_ai linkedinFeedUrl = .error "Unsupported job site" := by
  constructor
  · rfl
  · rfl

/-- C10 (amended): the ai_parser classifier is strictly stricter: whenever
it classifies a url as site s, the url_utils classifier also classifies the
url (it returns some site), and returns the same s provided no other
registered domain pattern also matches the url; the converse direction
fails, since url_utils classifies urls that ai_parser rejects. -/
theorem C10_ai_refines_utils :
    ∀ (url : List Char) (s : JobSite), detect_job_site_ai url = .ok s →
      (detect_job_site_utils url).isSome = true ∧
      ((∀ t : JobSite, t ≠ s →
          containsSub (domain_pattern t) (url.map Char.toLower) = false) →
        detect_job_site_utils url = some s) := by
  intro url s h
  have hdom : containsSub (domain_pattern s) (url.map Char.toLower) = true := by
    unfold detect_job_site_ai at h
    cases s with
    | linkedin =>
      split at h
      · rename_i hc
        exact containsSub_of_append "linkedin.com".data "/jobs".data _ hc
      · split at h
        · exact absurd h (by simp)
        · split at h
          · exact absurd h (by simp)
          · exact absurd h (by simp)
    | indeed =>
      split at h
      · exact absurd h (by simp)
      · split at h
        · rename_i hc
          exact containsSub_of_append "indeed.com".data "/viewjob".data _ hc
        · split at h
          · exact absurd h (by simp)
          · exact absurd h (by simp)
    | glassdoor =>
      split at h
      · exact absurd h (by simp)
      · split at h
        · exact absurd h (by simp)
        · split at h
          · rename_i hc
            exact containsSub_of_append "glassdoor.com".data "/job-listing".data _ hc
          · exact absurd h (by simp)
  constructor
  · by_cases h1 : containsSub (domain_pattern .linkedin) (url.map Char.toLower) = true
    · simp [detect_job_site_utils, h1]
    · by_cases h2 : containsSub (domain_pattern .indeed) (url.map Char.toLower) = true
      · simp [detect_job_site_utils, h1, h2]
      · by_cases h3 : containsSub (domain_pattern .glassdoor) (url.map Char.toLower) = true
        · simp [detect_job_site_utils, h1, h2, h3]
        · exfalso
          cases s with
          | linkedin => exact h1 hdom
          | indeed => exact h2 hdom
          | glassdoor => exact h3 hdom
  · intro hexc
    cases s with
    | linkedin => simp [detect_job_site_utils, hdom]
    | indeed =>
      have h1 := hexc .linkedin (by decide)
      simp [detect_job_site_utils, h1, hdom]
    | glassdoor =>
      have h1 := hexc .linkedin (by decide)
      have h2 := hexc .indeed (by decide)
      simp [detect_job_site_utils, h1, h2, hdom]

/-- C10 witness: the refinement applied to a LinkedIn jobs url that only
matches only the LinkedIn domain pattern. -/
theorem C10_ai_refines_utils_witness :
    detect_job_site_utils linkedinJobsUrl = some .linkedin := by
  exact (C10_ai_refines_utils linkedinJobsUrl .linkedin rfl).2 (by
    intro t ht
    cases t with
    | linkedin => exact absurd rfl ht
    | indeed => decide
    | glassdoor => decide)
